import Mathlib

/-!
Verification development for the `readme-lens` repository.

The core under study is the heuristic repository scanner
(`src/app/scanner.py`) and the scan-result cache (`src/app/db.py`).
Python strings are modelled as lists of Unicode code points (`List Nat`);
a text file's content is modelled by the list of its lines (the result of
Python's `str.splitlines`, which yields lines without terminators).
A scanned root directory is modelled by the set of names that exist as
regular files directly under it together with the lines obtained by
safely reading each such file (`read_text_safe` + `splitlines`).
-/

namespace ReadmeLens

/-- Convert a Lean string literal to the code-point model of a Python string. -/
def pstr (s : String) : List Nat := s.toList.map Char.toNat

/-- Python's `\s` / `str.strip` whitespace test, restricted to the ASCII
whitespace characters (space, tab, LF, VT, FF, CR). -/
def pyWs (c : Nat) : Bool := c == 32 || c == 9 || c == 10 || c == 13 || c == 11 || c == 12

/-- Python `str.lower` on one code point (ASCII model): map A–Z to a–z. -/
def lowerChar (c : Nat) : Nat := if 65 ≤ c ∧ c ≤ 90 then c + 32 else c

/-- Uppercasing of one code point (ASCII model): map a–z to A–Z. -/
def upperChar (c : Nat) : Nat := if 97 ≤ c ∧ c ≤ 122 then c - 32 else c

/-- ASCII letter test (used to model `str.title`'s word boundaries). -/
def isAlphaCh (c : Nat) : Bool := (65 ≤ c && c ≤ 90) || (97 ≤ c && c ≤ 122)

/-- Python `str.lower` (ASCII model). -/
def pyLower (s : List Nat) : List Nat := s.map lowerChar

/-- Python `str.strip()`: drop whitespace from both ends. -/
def pyStrip (s : List Nat) : List Nat := (s.dropWhile pyWs).rdropWhile pyWs

/-- Worker for `collapseWs`; the flag records whether the previous input
character belonged to a whitespace run that has already emitted its `' '`. -/
def collapseGo : Bool → List Nat → List Nat
  | _, [] => []
  | prevWs, c :: cs =>
    if pyWs c then
      if prevWs then collapseGo true cs else 32 :: collapseGo true cs
    else
      c :: collapseGo false cs

/-- Python `re.sub(r"\s+", " ", s)`: replace each maximal whitespace run
by a single space. -/
def collapseWs (s : List Nat) : List Nat := collapseGo false s

/-- Worker for `pyTitle`; the flag records whether the previous character
was a letter. -/
def titleGo : Bool → List Nat → List Nat
  | _, [] => []
  | prevAlpha, c :: cs =>
    (if prevAlpha then lowerChar c else upperChar c) :: titleGo (isAlphaCh c) cs

/-- Python `str.title` (ASCII model): uppercase each letter that starts a
word, lowercase the rest. -/
def pyTitle (s : List Nat) : List Nat := titleGo false s

/-- Python substring test `v in h` (contiguous substring). -/
def strIn (v : List Nat) : List Nat → Bool
  | [] => v.isEmpty
  | c :: cs => v.isPrefixOf (c :: cs) || strIn v cs

/-! ### Fixed tables from `src/app/scanner.py` -/

/-- Table `README_NAMES` (scanner.py lines 9–14). -/
def README_NAMES : List (List Nat) :=
  [pstr "README.md", pstr "readme.md", pstr "README.MD", pstr "README"]

/-- Table `DOC_FILES` (scanner.py lines 17–23); a dict, modelled as an
insertion-ordered association list. -/
def DOC_FILES : List (List Nat × List (List Nat)) :=
  [ (pstr "LICENSE", [pstr "LICENSE", pstr "LICENSE.md", pstr "LICENSE.txt"])
  , (pstr "CONTRIBUTING", [pstr "CONTRIBUTING.md", pstr "CONTRIBUTING"])
  , (pstr "CODE_OF_CONDUCT", [pstr "CODE_OF_CONDUCT.md", pstr "CODE_OF_CONDUCT"])
  , (pstr "SECURITY", [pstr "SECURITY.md", pstr "SECURITY"])
  , (pstr "CHANGELOG", [pstr "CHANGELOG.md", pstr "CHANGELOG"]) ]

/-- Table `ENV_FILES` (scanner.py line 26). -/
def ENV_FILES : List (List Nat) :=
  [pstr ".env.example", pstr ".env.sample", pstr ".env.template", pstr "env.example"]

/-- Table `BUILD_FILES` (scanner.py lines 29–41). -/
def BUILD_FILES : List (List Nat) :=
  [ pstr "Makefile", pstr "docker-compose.yml", pstr "docker-compose.yaml"
  , pstr "compose.yml", pstr "compose.yaml", pstr "package.json"
  , pstr "pnpm-lock.yaml", pstr "yarn.lock", pstr "requirements.txt"
  , pstr "pyproject.toml", pstr "poetry.lock" ]

/-- Table `COMMON_HEADINGS` (scanner.py lines 44–51); a dict, modelled as an
insertion-ordered association list. -/
def COMMON_HEADINGS : List (List Nat × List (List Nat)) :=
  [ (pstr "installation", [pstr "installation", pstr "install", pstr "setup"])
  , (pstr "usage", [pstr "usage", pstr "quickstart", pstr "getting started"])
  , (pstr "development", [pstr "development", pstr "dev", pstr "contributing"])
  , (pstr "configuration", [pstr "configuration", pstr "config", pstr "environment variables", pstr "env"])
  , (pstr "tests", [pstr "tests", pstr "testing"])
  , (pstr "license", [pstr "license"]) ]

/-! ### Heading extraction (scanner.py lines 54–83) -/

/-- Model of `HEADING_RE.match(line.strip())`, returning group 1.

`HEADING_RE = re.compile(r"^#{1,6}\s+(.+?)\s*$")` (scanner.py line 54):
on the stripped line, 1–6 leading `#` characters, at least one whitespace
character, then the (nonempty) rest; the lazy group together with the
trailing `\s*$` makes group 1 the rest of the stripped line after the
whitespace run that follows the hashes. -/
def matchHeading (line : List Nat) : Option (List Nat) :=
  let s := pyStrip line
  let k := (s.takeWhile (fun c => c == 35)).length
  match s.drop k with
  | c :: cs =>
    if 1 ≤ k ∧ k ≤ 6 ∧ pyWs c then
      let body := (c :: cs).dropWhile pyWs
      if body.isEmpty then none else some body
    else none
  | [] => none

/-- The per-heading normalization in `extract_headings` (scanner.py
lines 79–81): remove backtick characters (keeping their enclosed text),
collapse whitespace runs to single spaces, strip, lowercase. -/
def normalizeHeading (h : List Nat) : List Nat :=
  pyLower (pyStrip (collapseWs (h.filter (fun c => c != 96))))

/-- Function `extract_headings` (scanner.py lines 73–83).  The markdown text is
modelled by its `splitlines` decomposition. -/
def extract_headings (lines : List (List Nat)) : List (List Nat) :=
  lines.filterMap (fun line => (matchHeading line).map normalizeHeading)

/-- Modelled from the spec: "A line is a heading if it matches 1–6 leading
`#` characters, then whitespace, then text" — the spec-side reading of the
heading test, applied to a raw string.  Used to compare the code's
behaviour (which first strips the line) against the spec's words. -/
def specIsHeading (s : List Nat) : Bool :=
  let k := (s.takeWhile (fun c => c == 35)).length
  if 1 ≤ k ∧ k ≤ 6 then
    match s.drop k with
    | c :: cs => pyWs c && !((c :: cs).dropWhile pyWs).isEmpty
    | [] => false
  else false

/-- Function `heading_present` (scanner.py lines 86–91). -/
def heading_present (headings : List (List Nat)) (variants : List (List Nat)) : Bool :=
  headings.any (fun h => variants.any (fun v => strIn v h))

/-! ### The scanned directory and `scan_repo` (scanner.py lines 57–176) -/

/-- The extracted repository tree handed to the scanner, restricted to what
the scanner observes: which names are regular files directly under the root
(`(root / n).exists() and (root / n).is_file()`), and, for each such file,
the lines of its safely-read text (`read_text_safe` + `splitlines`). -/
structure Dir where
  files : List (List Nat)
  readLines : List Nat → List (List Nat)

/-- Function `find_first` (scanner.py lines 57–62): the first candidate name that is a
regular file directly under the root.  The source returns the path
`root / n`; since every caller only ever uses `str(p.relative_to(root))`,
which equals `n`, the model returns the name itself. -/
def find_first (root : Dir) (names : List (List Nat)) : Option (List Nat) :=
  names.find? (fun n => root.files.contains n)

/-- Lookup in an insertion-ordered association list (a Python dict read
`d[k]`), with a default for the (never-exercised) missing-key case. -/
def dget {α : Type} (d : List (List Nat × α)) (k : List Nat) (dflt : α) : α :=
  ((d.find? (fun kv => kv.1 == k)).map (fun kv => kv.2)).getD dflt

/-- The README headings computed by `scan_repo` (scanner.py lines 107–112):
extracted from the README's text when one is found, `[]` otherwise. -/
def scanHeadings (root : Dir) : List (List Nat) :=
  match find_first root README_NAMES with
  | some p => extract_headings (root.readLines p)
  | none => []

/-- The `found["readme"]["sections"]` dict built by `scan_repo`
(scanner.py lines 113–117): one entry per `COMMON_HEADINGS` key, in
insertion order; matched against the headings when a README was found,
all `false` otherwise. -/
def scanSections (root : Dir) : List (List Nat × Bool) :=
  match find_first root README_NAMES with
  | some _ => COMMON_HEADINGS.map (fun kv => (kv.1, heading_present (scanHeadings root) kv.2))
  | none => COMMON_HEADINGS.map (fun kv => (kv.1, false))

/-- The `found["files"]` dict built by `scan_repo` (scanner.py
lines 119–132): the five doc categories (found name or `None`), then
`ENV_EXAMPLE`, then one entry per existing build file under its own name. -/
def scanFiles (root : Dir) : List (List Nat × Option (List Nat)) :=
  (DOC_FILES.map (fun kv => (kv.1, find_first root kv.2)))
    ++ [(pstr "ENV_EXAMPLE", find_first root ENV_FILES)]
    ++ (BUILD_FILES.filter (fun n => root.files.contains n)).map (fun n => (n, some n))

/-- The score computed by `scan_repo` (scanner.py lines 134–156): the sum of
the fixed weights of the satisfied conditions, clamped to 100. -/
def scanScore (root : Dir) : Nat :=
  let files := scanFiles root
  let sections := scanSections root
  let score :=
    (if (find_first root README_NAMES).isSome then 25 else 0) +
    (if (dget files (pstr "LICENSE") none).isSome then 8 else 0) +
    (if (dget files (pstr "CONTRIBUTING") none).isSome then 8 else 0) +
    (if (dget files (pstr "CODE_OF_CONDUCT") none).isSome then 5 else 0) +
    (if (dget files (pstr "SECURITY") none).isSome then 5 else 0) +
    (if (dget files (pstr "CHANGELOG") none).isSome then 4 else 0) +
    (if (dget files (pstr "ENV_EXAMPLE") none).isSome then 10 else 0) +
    (if dget sections (pstr "installation") false then 6 else 0) +
    (if dget sections (pstr "usage") false then 6 else 0) +
    (if dget sections (pstr "configuration") false then 6 else 0) +
    (if dget sections (pstr "tests") false then 4 else 0) +
    (if dget sections (pstr "development") false then 4 else 0)
  min score 100

/-- The suggestions computed by `scan_repo` (scanner.py lines 158–174):
one README suggestion when no README was found, else one section suggestion
per missing section among installation/usage/configuration/tests in the
sections dict's insertion order; then one suggestion each for a missing
LICENSE, CONTRIBUTING and ENV_EXAMPLE. -/
def scanSuggestions (root : Dir) : List (List Nat) :=
  let files := scanFiles root
  let sections := scanSections root
  (match find_first root README_NAMES with
    | none => [pstr "Add a README.md with purpose + quickstart + dev instructions."]
    | some _ =>
      (sections.filter (fun kv =>
          !kv.2 && (kv.1 == pstr "installation" || kv.1 == pstr "usage"
            || kv.1 == pstr "configuration" || kv.1 == pstr "tests"))).map
        (fun kv => pstr "Add a README section: " ++ pyTitle kv.1 ++ pstr "."))
  ++ (if (dget files (pstr "LICENSE") none).isSome then []
      else [pstr "Add a LICENSE file (MIT/Apache-2.0/etc)."])
  ++ (if (dget files (pstr "CONTRIBUTING") none).isSome then []
      else [pstr "Add CONTRIBUTING.md with local dev + PR guidelines."])
  ++ (if (dget files (pstr "ENV_EXAMPLE") none).isSome then []
      else [pstr "Add .env.example (or document required environment variables)."])

/-- The `found["readme"]` sub-dict of a scan result. -/
structure ReadmeInfo where
  path : Option (List Nat)
  headings : List (List Nat)
  sections : List (List Nat × Bool)
deriving DecidableEq

/-- The dict returned by `scan_repo` (scanner.py lines 94–176). -/
structure ScanResult where
  files : List (List Nat × Option (List Nat))
  readme : ReadmeInfo
  score : Nat
  suggestions : List (List Nat)
deriving DecidableEq

/-- Function `scan_repo` (scanner.py lines 94–176). -/
def scan_repo (root : Dir) : ScanResult :=
  { files := scanFiles root
  , readme :=
    { path := find_first root README_NAMES
    , headings := scanHeadings root
    , sections := scanSections root }
  , score := scanScore root
  , suggestions := scanSuggestions root }

/-! ### The scan cache (src/app/db.py)

A `scans` table row (db.py lines 16–31).  `id INTEGER PRIMARY KEY
AUTOINCREMENT` makes row ids strictly increase in insertion order, so the
table's content is modelled as the list of live rows in insertion order.
The `result_json` column holds the JSON serialization of a scan result;
the text layer (`json.dumps` / `json.loads`, Python standard library,
lossless on this shape) is abstracted away, so the column is modelled by
the JSON *value* stored in it. -/

/-- A JSON value, the shape `json.dumps` accepts / `json.loads` returns
for a scan-result dict. -/
inductive J where
  | null : J
  | jb : Bool → J
  | jn : Nat → J
  | js : List Nat → J
  | ja : List J → J
  | jo : List (List Nat × J) → J

/-- Encode an optional string the way the scan-result dict holds it
(`None` ↦ `null`). -/
def optJ : Option (List Nat) → J
  | none => J.null
  | some s => J.js s

/-- The JSON value `json.dumps` receives for a `scan_repo` result dict:
the dict shape from scanner.py lines 95–104 with insertion-ordered keys. -/
def encodeScan (r : ScanResult) : J :=
  J.jo
    [ (pstr "files", J.jo (r.files.map (fun kv => (kv.1, optJ kv.2))))
    , (pstr "readme", J.jo
        [ (pstr "path", optJ r.readme.path)
        , (pstr "headings", J.ja (r.readme.headings.map J.js))
        , (pstr "sections", J.jo (r.readme.sections.map (fun kv => (kv.1, J.jb kv.2)))) ])
    , (pstr "score", J.jn r.score)
    , (pstr "suggestions", J.ja (r.suggestions.map J.js)) ]

/-- Decode each element of a list, succeeding only if every element
decodes (the effect of `mapM` over the `Option` monad). -/
def mapMO {α β : Type} (f : α → Option β) : List α → Option (List β)
  | [] => some []
  | a :: as => (f a).bind (fun b => (mapMO f as).map (fun bs => b :: bs))

/-- Read an optional string back off its JSON value. -/
def decOptStr : J → Option (Option (List Nat))
  | J.null => some none
  | J.js s => some (some s)
  | _ => none

/-- Read a string back off its JSON value. -/
def decStr : J → Option (List Nat)
  | J.js s => some s
  | _ => none

/-- Read one entry of the files dict back off its JSON form. -/
def decFileEntry (kv : List Nat × J) : Option (List Nat × Option (List Nat)) :=
  (decOptStr kv.2).map (fun o => (kv.1, o))

/-- Read one entry of the sections dict back off its JSON form. -/
def decSecEntry : List Nat × J → Option (List Nat × Bool)
  | (k, J.jb b) => some (k, b)
  | _ => none

/-- Read a `ScanResult` back off its JSON value (the ScanResult shape of
spec §3); exhibits that `encodeScan` loses nothing. -/
def decodeScan (j : J) : Option ScanResult :=
  match j with
  | J.jo [(k1, J.jo fs), (k2, J.jo [(kp, jp), (kh, J.ja hs), (ks, J.jo ss)]),
      (k3, J.jn sc), (k4, J.ja sg)] =>
    if k1 == pstr "files" && k2 == pstr "readme" && kp == pstr "path"
        && kh == pstr "headings" && ks == pstr "sections" && k3 == pstr "score"
        && k4 == pstr "suggestions" then
      do
        let files ← mapMO decFileEntry fs
        let path ← decOptStr jp
        let headings ← mapMO decStr hs
        let sections ← mapMO decSecEntry ss
        let suggestions ← mapMO decStr sg
        some ⟨files, ⟨path, headings, sections⟩, sc, suggestions⟩
    else none
  | _ => none

/-- One live row of the `scans` table (db.py lines 16–31), sans the
autoincrement id, which is modelled by the row's position. -/
structure Row where
  owner : List Nat
  repo : List Nat
  branch : List Nat
  sha : List Nat
  scanned_at : Nat
  result_json : J

/-- The key predicate of the `UNIQUE(owner, repo, sha)` constraint. -/
def rowKey (owner repo sha : List Nat) (r : Row) : Bool :=
  r.owner == owner && r.repo == repo && r.sha == sha

/-- Function `get_cached` (db.py lines 34–41): exact-key lookup returning the parsed
`result_json` of the matching row, if any. -/
def get_cached (db : List Row) (owner repo sha : List Nat) : Option J :=
  (db.find? (rowKey owner repo sha)).map (fun r => r.result_json)

/-- Function `save_scan` (db.py lines 44–61): `INSERT OR REPLACE` keyed by
`UNIQUE(owner, repo, sha)` — any conflicting row is deleted and the new row
is inserted with a fresh (largest) id, i.e. at the end. -/
def save_scan (db : List Row) (owner repo branch sha : List Nat)
    (scanned_at : Nat) (result : ScanResult) : List Row :=
  db.filter (fun r => !rowKey owner repo sha r)
    ++ [⟨owner, repo, branch, sha, scanned_at, encodeScan result⟩]

/-- The row summary returned by `list_recent` (`SELECT owner, repo, branch,
sha, scanned_at`). -/
structure RecentRow where
  owner : List Nat
  repo : List Nat
  branch : List Nat
  sha : List Nat
  scanned_at : Nat
deriving DecidableEq

/-- The `ORDER BY scanned_at DESC` comparison on rows. -/
def recAfter (a b : Row) : Prop := b.scanned_at ≤ a.scanned_at

instance : DecidableRel recAfter := fun a b => Nat.decLe b.scanned_at a.scanned_at

instance : IsTotal Row recAfter := ⟨fun a b => Nat.le_total b.scanned_at a.scanned_at⟩

instance : IsTrans Row recAfter := ⟨fun _ _ _ h1 h2 => Nat.le_trans h2 h1⟩

/-- Function `list_recent` (db.py lines 64–73): rows ordered by `scanned_at`
descending (ties in unspecified order; the model picks a stable sort),
truncated to `limit`. -/
def list_recent (db : List Row) (limit : Nat) : List RecentRow :=
  ((db.insertionSort recAfter).take limit).map
    (fun r => ⟨r.owner, r.repo, r.branch, r.sha, r.scanned_at⟩)

/-! ## Helper lemmas -/

/-- Predicate `strIn` decides the substring (contiguous infix) relation. -/
theorem strIn_iff (v : List Nat) : ∀ h : List Nat, strIn v h = true ↔ v <:+: h := by
  intro h
  induction h with
  | nil => simp [strIn, List.isEmpty_iff]
  | cons c cs ih =>
    simp [strIn, ih, List.infix_cons_iff, List.isPrefixOf_iff_prefix]

/-- Function `heading_present` is satisfied exactly when some heading contains some
variant as a substring. -/
theorem heading_present_iff (hs vs : List (List Nat)) :
    heading_present hs vs = true ↔ ∃ h ∈ hs, ∃ v ∈ vs, v <:+: h := by
  simp [heading_present, List.any_eq_true, strIn_iff]

/-- A lookup in an all-`false` sections dict yields `false`. -/
theorem dget_all_false (d : List (List Nat × Bool)) (k : List Nat)
    (h : ∀ kv ∈ d, kv.2 = false) : dget d k false = false := by
  unfold dget
  cases hf : d.find? (fun kv => kv.1 == k) with
  | none => rfl
  | some kv => exact h kv (List.mem_of_find?_eq_some hf)

/-! ## C1 -/

/-- C1: the score of `scan_repo root` equals the sum of the fixed weights
over the satisfied conditions (README 25, LICENSE 8, CONTRIBUTING 8,
CODE_OF_CONDUCT 5, SECURITY 5, CHANGELOG 4, ENV_EXAMPLE 10, README sections
installation/usage/configuration 6 each, tests/development 4 each), clamped
to at most 100; consequently the score lies in [0, 100]. -/
theorem scan_score_is_clamped_weight_sum (root : Dir) :
    (scan_repo root).score =
      min ((if (scan_repo root).readme.path.isSome then 25 else 0) +
        (if (dget (scan_repo root).files (pstr "LICENSE") none).isSome then 8 else 0) +
        (if (dget (scan_repo root).files (pstr "CONTRIBUTING") none).isSome then 8 else 0) +
        (if (dget (scan_repo root).files (pstr "CODE_OF_CONDUCT") none).isSome then 5 else 0) +
        (if (dget (scan_repo root).files (pstr "SECURITY") none).isSome then 5 else 0) +
        (if (dget (scan_repo root).files (pstr "CHANGELOG") none).isSome then 4 else 0) +
        (if (dget (scan_repo root).files (pstr "ENV_EXAMPLE") none).isSome then 10 else 0) +
        (if dget (scan_repo root).readme.sections (pstr "installation") false then 6 else 0) +
        (if dget (scan_repo root).readme.sections (pstr "usage") false then 6 else 0) +
        (if dget (scan_repo root).readme.sections (pstr "configuration") false then 6 else 0) +
        (if dget (scan_repo root).readme.sections (pstr "tests") false then 4 else 0) +
        (if dget (scan_repo root).readme.sections (pstr "development") false then 4 else 0)) 100
    ∧ 0 ≤ (scan_repo root).score ∧ (scan_repo root).score ≤ 100 :=
  ⟨rfl, Nat.zero_le _, Nat.min_le_right _ _⟩

/-! ## C2 -/

/-- C2: the sections dict of every scan result has exactly the 6 fixed keys
installation, usage, development, configuration, tests, license, in that
insertion order, whether or not a README was found; and when no README is
found, the readme path is null, every section value is false and the
headings list is empty. -/
theorem scan_sections_keys (root : Dir) :
    (scan_repo root).readme.sections.map Prod.fst =
      [pstr "installation", pstr "usage", pstr "development", pstr "configuration",
        pstr "tests", pstr "license"]
    ∧ (find_first root README_NAMES = none →
        (scan_repo root).readme.path = none
        ∧ (∀ kv ∈ (scan_repo root).readme.sections, kv.2 = false)
        ∧ (scan_repo root).readme.headings = []) := by
  constructor
  · show (scanSections root).map Prod.fst = _
    unfold scanSections
    cases find_first root README_NAMES <;> rfl
  · intro h
    refine ⟨h, ?_, ?_⟩
    · show ∀ kv ∈ scanSections root, kv.2 = false
      unfold scanSections
      rw [h]
      intro kv hkv
      obtain ⟨kv', _, rfl⟩ := List.mem_map.mp hkv
      rfl
    · show scanHeadings root = []
      unfold scanHeadings
      rw [h]

/-- Witness for C2 at a concrete empty root directory. -/
theorem scan_sections_keys_witness :
    (scan_repo ⟨[], fun _ => []⟩).readme.path = none
    ∧ (∀ kv ∈ (scan_repo ⟨[], fun _ => []⟩).readme.sections, kv.2 = false)
    ∧ (scan_repo ⟨[], fun _ => []⟩).readme.headings = [] :=
  (scan_sections_keys ⟨[], fun _ => []⟩).2 (by decide)

/-! ## C10 -/

/-- The full candidate-name pool from the scanner's fixed tables. -/
def allCandidateNames : List (List Nat) :=
  README_NAMES ++ (DOC_FILES.map Prod.snd).flatten ++ ENV_FILES ++ BUILD_FILES

/-- Every fixed candidate name is a bare filename: no `/` (47) and no
`\` (92) occurs in it. -/
theorem candidates_no_separator : ∀ v ∈ allCandidateNames, ¬47 ∈ v ∧ ¬92 ∈ v := by decide

/-- Function `find_first` only returns one of its candidate names, and only when it
is a regular file directly under the root. -/
theorem find_first_mem (root : Dir) (names : List (List Nat)) (p : List Nat)
    (h : find_first root names = some p) : p ∈ names ∧ p ∈ root.files := by
  refine ⟨List.mem_of_find?_eq_some h, ?_⟩
  have := List.find?_some h
  simpa using this

/-- C10: every file path recorded in a scan result — the readme path and
every non-null value of the files dict — is a bare filename with no
directory separator, drawn from the fixed candidate tables (README_NAMES,
the DOC_FILES variant lists, ENV_FILES, BUILD_FILES), and denotes a regular
file directly under the scanned root. -/
theorem scan_paths_are_candidates (root : Dir) :
    (∀ p, (scan_repo root).readme.path = some p →
      p ∈ README_NAMES ∧ p ∈ root.files ∧ ¬47 ∈ p ∧ ¬92 ∈ p)
    ∧ (∀ k v, (k, some v) ∈ (scan_repo root).files →
        v ∈ allCandidateNames ∧ v ∈ root.files ∧ ¬47 ∈ v ∧ ¬92 ∈ v) := by
  constructor
  · intro p hp
    have hp' : find_first root README_NAMES = some p := hp
    obtain ⟨h1, h2⟩ := find_first_mem root README_NAMES p hp'
    have hc := candidates_no_separator p (by
      unfold allCandidateNames
      simp [h1])
    exact ⟨h1, h2, hc⟩
  · intro k v hkv
    have hv : v ∈ allCandidateNames ∧ v ∈ root.files := by
      have hkv' : (k, some v) ∈ scanFiles root := hkv
      unfold scanFiles at hkv'
      rw [List.mem_append, List.mem_append] at hkv'
      rcases hkv' with (hdoc | henv) | hbuild
      · obtain ⟨kv', hkv'mem, heq⟩ := List.mem_map.mp hdoc
        have hff : find_first root kv'.2 = some v := by
          have := congrArg Prod.snd heq
          simpa using this
        obtain ⟨h1, h2⟩ := find_first_mem root kv'.2 v hff
        refine ⟨?_, h2⟩
        unfold allCandidateNames
        have : kv'.2 ∈ DOC_FILES.map Prod.snd := List.mem_map_of_mem Prod.snd hkv'mem
        simp only [List.mem_append]
        exact Or.inl (Or.inl (Or.inr (List.mem_flatten_of_mem this h1)))
      · have heq : (k, some v) = (pstr "ENV_EXAMPLE", find_first root ENV_FILES) := by
          simpa using henv
        have hff : find_first root ENV_FILES = some v := by
          have := congrArg Prod.snd heq
          simpa using this.symm
        obtain ⟨h1, h2⟩ := find_first_mem root ENV_FILES v hff
        refine ⟨?_, h2⟩
        unfold allCandidateNames
        simp [h1]
      · obtain ⟨n, hn, heq⟩ := List.mem_map.mp hbuild
        rw [List.mem_filter] at hn
        have hvn : v = n := by
          have := congrArg Prod.snd heq
          simpa using this.symm
        subst hvn
        refine ⟨?_, by simpa using hn.2⟩
        unfold allCandidateNames
        simp [hn.1]
    exact ⟨hv.1, hv.2, candidates_no_separator v hv.1⟩

/-- Witness for C10 at a concrete root holding a README and a Makefile. -/
theorem scan_paths_are_candidates_witness :
    pstr "README.md" ∈ README_NAMES
    ∧ pstr "README.md" ∈ (⟨[pstr "README.md", pstr "Makefile"], fun _ => []⟩ : Dir).files
    ∧ ¬47 ∈ pstr "README.md" ∧ ¬92 ∈ pstr "README.md" :=
  (scan_paths_are_candidates ⟨[pstr "README.md", pstr "Makefile"], fun _ => []⟩).1
    (pstr "README.md") (by decide)

/-! ## C5 -/

/-- C5: a section category is marked true exactly when at least one
extracted heading contains at least one of that category's variant strings
as a substring. -/
theorem section_true_iff_variant_in_heading (root : Dir) (k : List Nat)
    (vs : List (List Nat)) (hk : (k, vs) ∈ COMMON_HEADINGS) :
    dget (scan_repo root).readme.sections k false = true ↔
      ∃ h ∈ (scan_repo root).readme.headings, ∃ v ∈ vs, v <:+: h := by
  show dget (scanSections root) k false = true ↔ ∃ h ∈ scanHeadings root, ∃ v ∈ vs, v <:+: h
  unfold scanSections
  cases hf : find_first root README_NAMES with
  | none =>
    have hemp : scanHeadings root = [] := by unfold scanHeadings; rw [hf]
    rw [hemp, dget_all_false]
    · simp
    · intro kv hkv
      obtain ⟨kv', _, rfl⟩ := List.mem_map.mp hkv
      rfl
  | some p =>
    simp only [COMMON_HEADINGS, List.mem_cons, List.not_mem_nil, or_false,
      Prod.mk.injEq] at hk
    rcases hk with ⟨rfl, rfl⟩ | ⟨rfl, rfl⟩ | ⟨rfl, rfl⟩ | ⟨rfl, rfl⟩ | ⟨rfl, rfl⟩ | ⟨rfl, rfl⟩ <;>
      exact heading_present_iff (scanHeadings root) _

/-- Witness for C5: a concrete root whose README has a `## Usage` heading. -/
theorem section_true_iff_variant_in_heading_witness :
    dget (scan_repo ⟨[pstr "README.md"], fun _ => [pstr "## Usage"]⟩).readme.sections
        (pstr "usage") false = true ↔
      ∃ h ∈ (scan_repo ⟨[pstr "README.md"], fun _ => [pstr "## Usage"]⟩).readme.headings,
        ∃ v ∈ [pstr "usage", pstr "quickstart", pstr "getting started"], v <:+: h :=
  section_true_iff_variant_in_heading ⟨[pstr "README.md"], fun _ => [pstr "## Usage"]⟩
    (pstr "usage") [pstr "usage", pstr "quickstart", pstr "getting started"] (by decide)

/-! ## C6 -/

/-- Every suggestion emitted by the scanner is one of the eight fixed
suggestion strings (and in particular none mentions the Development or
License sections, nor CODE_OF_CONDUCT, SECURITY or CHANGELOG). -/
theorem suggestion_cases (root : Dir) (x : List Nat) (hx : x ∈ scanSuggestions root) :
    x = pstr "Add a README.md with purpose + quickstart + dev instructions."
    ∨ x = pstr "Add a README section: Installation."
    ∨ x = pstr "Add a README section: Usage."
    ∨ x = pstr "Add a README section: Configuration."
    ∨ x = pstr "Add a README section: Tests."
    ∨ x = pstr "Add a LICENSE file (MIT/Apache-2.0/etc)."
    ∨ x = pstr "Add CONTRIBUTING.md with local dev + PR guidelines."
    ∨ x = pstr "Add .env.example (or document required environment variables)." := by
  unfold scanSuggestions at hx
  rw [List.mem_append, List.mem_append, List.mem_append] at hx
  rcases hx with ((ha | hb) | hc) | hd
  · cases hff : find_first root README_NAMES with
    | none =>
      rw [hff] at ha
      simp only [List.mem_singleton] at ha
      exact Or.inl ha
    | some p =>
      rw [hff] at ha
      obtain ⟨kv, hkvf, rfl⟩ := List.mem_map.mp ha
      rw [List.mem_filter] at hkvf
      have hk := hkvf.2
      simp only [Bool.and_eq_true, Bool.or_eq_true, beq_iff_eq] at hk
      rcases hk.2 with ((h | h) | h) | h <;> rw [h]
      · exact Or.inr (Or.inl (by decide))
      · exact Or.inr (Or.inr (Or.inl (by decide)))
      · exact Or.inr (Or.inr (Or.inr (Or.inl (by decide))))
      · exact Or.inr (Or.inr (Or.inr (Or.inr (Or.inl (by decide)))))
  · split at hb
    · exact absurd hb (List.not_mem_nil x)
    · simp only [List.mem_singleton] at hb
      exact Or.inr (Or.inr (Or.inr (Or.inr (Or.inr (Or.inl hb)))))
  · split at hc
    · exact absurd hc (List.not_mem_nil x)
    · simp only [List.mem_singleton] at hc
      exact Or.inr (Or.inr (Or.inr (Or.inr (Or.inr (Or.inr (Or.inl hc))))))
  · split at hd
    · exact absurd hd (List.not_mem_nil x)
    · simp only [List.mem_singleton] at hd
      exact Or.inr (Or.inr (Or.inr (Or.inr (Or.inr (Or.inr (Or.inr hd))))))

/-- C6: the suggestions list follows the fixed rule and order — when no
README was found it is exactly one README suggestion followed by the
file-level suggestions; otherwise one section suggestion for each of
installation, usage, configuration, tests that is false (in the sections
dict's insertion order, which lists installation, usage, configuration,
tests among the four); then one suggestion each for a missing LICENSE,
CONTRIBUTING and ENV_EXAMPLE, in that order; and no suggestion for a
missing Development or License section (nor, per the fixed strings, for
CODE_OF_CONDUCT, SECURITY or CHANGELOG) ever appears. -/
theorem scan_suggestions_follow_fixed_rule (root : Dir) :
    (scan_repo root).suggestions =
      (match (scan_repo root).readme.path with
        | none => [pstr "Add a README.md with purpose + quickstart + dev instructions."]
        | some _ =>
          ((scan_repo root).readme.sections.filter (fun kv =>
              !kv.2 && (kv.1 == pstr "installation" || kv.1 == pstr "usage"
                || kv.1 == pstr "configuration" || kv.1 == pstr "tests"))).map
            (fun kv => pstr "Add a README section: " ++ pyTitle kv.1 ++ pstr "."))
      ++ (if (dget (scan_repo root).files (pstr "LICENSE") none).isSome then []
          else [pstr "Add a LICENSE file (MIT/Apache-2.0/etc)."])
      ++ (if (dget (scan_repo root).files (pstr "CONTRIBUTING") none).isSome then []
          else [pstr "Add CONTRIBUTING.md with local dev + PR guidelines."])
      ++ (if (dget (scan_repo root).files (pstr "ENV_EXAMPLE") none).isSome then []
          else [pstr "Add .env.example (or document required environment variables)."])
    ∧ pstr "Add a README section: Development." ∉ (scan_repo root).suggestions
    ∧ pstr "Add a README section: License." ∉ (scan_repo root).suggestions := by
  refine ⟨?_, fun hx => ?_, fun hx => ?_⟩
  · show scanSuggestions root =
      (match find_first root README_NAMES with
        | none => [pstr "Add a README.md with purpose + quickstart + dev instructions."]
        | some _ =>
          ((scanSections root).filter (fun kv =>
              !kv.2 && (kv.1 == pstr "installation" || kv.1 == pstr "usage"
                || kv.1 == pstr "configuration" || kv.1 == pstr "tests"))).map
            (fun kv => pstr "Add a README section: " ++ pyTitle kv.1 ++ pstr "."))
      ++ (if (dget (scanFiles root) (pstr "LICENSE") none).isSome then []
          else [pstr "Add a LICENSE file (MIT/Apache-2.0/etc)."])
      ++ (if (dget (scanFiles root) (pstr "CONTRIBUTING") none).isSome then []
          else [pstr "Add CONTRIBUTING.md with local dev + PR guidelines."])
      ++ (if (dget (scanFiles root) (pstr "ENV_EXAMPLE") none).isSome then []
          else [pstr "Add .env.example (or document required environment variables)."])
    unfold scanSuggestions
    cases find_first root README_NAMES <;> rfl
  · rcases suggestion_cases root _ hx with h | h | h | h | h | h | h | h <;>
      exact absurd h (by decide)
  · rcases suggestion_cases root _ hx with h | h | h | h | h | h | h | h <;>
      exact absurd h (by decide)

/-- Witness for C6 at a concrete empty root directory. -/
theorem scan_suggestions_follow_fixed_rule_witness :
    pstr "Add a README section: Development."
      ∉ (scan_repo ⟨[], fun _ => []⟩).suggestions :=
  (scan_suggestions_follow_fixed_rule ⟨[], fun _ => []⟩).2.1

/-! ## C3 -/

/-- Characters surviving `pyStrip` come from the original string. -/
theorem mem_pyStrip (s : List Nat) (c : Nat) (h : c ∈ pyStrip s) : c ∈ s := by
  unfold pyStrip at h
  exact (List.dropWhile_sublist pyWs).subset
    ((List.rdropWhile_prefix pyWs (s.dropWhile pyWs)).sublist.subset h)

/-- The code's heading test succeeds exactly when the stripped line
satisfies the spec's description of an ATX heading. -/
theorem matchHeading_isSome (line : List Nat) :
    (matchHeading line).isSome = specIsHeading (pyStrip line) := by
  simp only [matchHeading, specIsHeading]
  set s := pyStrip line with hs
  set k := (s.takeWhile (fun c => c == 35)).length with hk
  cases hdrop : s.drop k with
  | nil => simp
  | cons c cs =>
    show (if 1 ≤ k ∧ k ≤ 6 ∧ pyWs c = true then
            if ((c :: cs).dropWhile pyWs).isEmpty = true then none
            else some ((c :: cs).dropWhile pyWs)
          else none).isSome =
      if 1 ≤ k ∧ k ≤ 6 then pyWs c && !((c :: cs).dropWhile pyWs).isEmpty else false
    by_cases h16 : 1 ≤ k ∧ k ≤ 6
    · rw [if_pos h16]
      cases hws : pyWs c with
      | true =>
        rw [if_pos (show 1 ≤ k ∧ k ≤ 6 ∧ true = true from ⟨h16.1, h16.2, rfl⟩)]
        cases hbe : ((c :: cs).dropWhile pyWs).isEmpty <;> simp [hbe]
      | false =>
        rw [if_neg (show ¬(1 ≤ k ∧ k ≤ 6 ∧ false = true) from
          fun hcond => Bool.noConfusion hcond.2.2)]
        simp
    · have hneg : ¬(1 ≤ k ∧ k ≤ 6 ∧ pyWs c = true) :=
        fun hcond => h16 ⟨hcond.1, hcond.2.1⟩
      rw [if_neg h16, if_neg hneg]
      rfl

/-- C3 counterexample: the raw line `" # hi"` does not match "1–6 leading
`#` characters, then whitespace, then text" (it starts with a space), yet
`extract_headings` produces an entry for it, because the code strips each
line before applying the heading pattern.  This falsifies the claim as
stated over raw lines. -/
theorem extract_headings_unstripped_cx :
    specIsHeading (pstr " # hi") = false
    ∧ extract_headings [pstr " # hi"] = [pstr "hi"] := by decide

/-- C3 (amended): `extract_headings` treats lines independently and
produces an output entry for a line exactly when the line, after stripping
surrounding whitespace (the code applies `str.strip` before matching),
matches 1–6 leading `#` characters followed by whitespace followed by
text; in particular setext-style underline lines (made of `=` (61) or `-`
(45) characters) never produce an entry. -/
theorem extract_headings_line_rule :
    (∀ l1 l2 : List (List Nat),
      extract_headings (l1 ++ l2) = extract_headings l1 ++ extract_headings l2)
    ∧ (∀ line, extract_headings [line] ≠ [] ↔ specIsHeading (pyStrip line) = true)
    ∧ (∀ line, (∀ c ∈ line, c = 61 ∨ c = 45) → extract_headings [line] = []) := by
  have hsingle : ∀ line, extract_headings [line] ≠ [] ↔ specIsHeading (pyStrip line) = true := by
    intro line
    have hiff := matchHeading_isSome line
    unfold extract_headings
    cases ho : matchHeading line with
    | none =>
      rw [ho] at hiff
      simp [List.filterMap_cons, ho, ← hiff]
    | some b =>
      rw [ho] at hiff
      simp [List.filterMap_cons, ho, ← hiff]
  refine ⟨fun l1 l2 => List.filterMap_append l1 l2 _, hsingle, ?_⟩
  intro line hline
  have hspec : specIsHeading (pyStrip line) = false := by
    cases hps : pyStrip line with
    | nil => rfl
    | cons c cs =>
      have hc : c = 61 ∨ c = 45 := hline c (mem_pyStrip line c (hps ▸ List.mem_cons_self c cs))
      have h35 : (c == 35) = false := by
        rcases hc with rfl | rfl <;> rfl
      unfold specIsHeading
      rw [List.takeWhile_cons, h35]
      simp
  cases ho : extract_headings [line] with
  | nil => rfl
  | cons a l =>
    have hne : extract_headings [line] ≠ [] := by rw [ho]; simp
    rw [hsingle line] at hne
    rw [hspec] at hne
    exact Bool.noConfusion hne

/-- Witness for C3 (amended): a setext-style underline line yields no
heading. -/
theorem extract_headings_line_rule_witness :
    extract_headings [pstr "===="] = [] :=
  extract_headings_line_rule.2.2 (pstr "====") (by decide)

/-! ## C4 -/

/-- Two adjacent characters are never both whitespace. -/
def noWsPair (a b : Nat) : Prop := ¬(pyWs a = true ∧ pyWs b = true)

/-- Lowercasing is idempotent on one code point. -/
theorem lowerChar_lowerChar (c : Nat) : lowerChar (lowerChar c) = lowerChar c := by
  by_cases h : 65 ≤ c ∧ c ≤ 90
  · have h1 : lowerChar c = c + 32 := if_pos h
    rw [h1]
    exact if_neg (by omega)
  · have h1 : lowerChar c = c := if_neg h
    rw [h1]
    exact h1

/-- Lowercasing does not change whether a code point is whitespace. -/
theorem pyWs_lowerChar (c : Nat) : pyWs (lowerChar c) = pyWs c := by
  by_cases h : 65 ≤ c ∧ c ≤ 90
  · have h1 : lowerChar c = c + 32 := if_pos h
    rw [h1, Bool.eq_iff_iff]
    simp only [pyWs, Bool.or_eq_true, beq_iff_eq]
    omega
  · have h1 : lowerChar c = c := if_neg h
    rw [h1]

/-- Lowercasing never produces a backtick from a non-backtick. -/
theorem lowerChar_eq_96 (c : Nat) (h : lowerChar c = 96) : c = 96 := by
  by_cases hc : 65 ≤ c ∧ c ≤ 90
  · have h1 : lowerChar c = c + 32 := if_pos hc
    rw [h1] at h
    omega
  · have h1 : lowerChar c = c := if_neg hc
    rw [h1] at h
    exact h

/-- Characters of `collapseGo` output: the emitted space, or input characters. -/
theorem mem_collapseGo : ∀ (s : List Nat) (b : Bool) (c : Nat),
    c ∈ collapseGo b s → c = 32 ∨ c ∈ s := by
  intro s
  induction s with
  | nil => intro b c hc; simp [collapseGo] at hc
  | cons a as ih =>
    intro b c hc
    cases b <;> cases hws : pyWs a <;> simp only [collapseGo, hws, if_true, if_false,
      Bool.false_eq_true, if_neg, List.mem_cons] at hc
    · rcases hc with rfl | hc
      · exact Or.inr (by simp)
      · rcases ih false c hc with h | h
        · exact Or.inl h
        · exact Or.inr (List.mem_cons_of_mem a h)
    · rcases hc with rfl | hc
      · exact Or.inl rfl
      · rcases ih true c hc with h | h
        · exact Or.inl h
        · exact Or.inr (List.mem_cons_of_mem a h)
    · rcases hc with rfl | hc
      · exact Or.inr (by simp)
      · rcases ih false c hc with h | h
        · exact Or.inl h
        · exact Or.inr (List.mem_cons_of_mem a h)
    · rcases ih true c hc with h | h
      · exact Or.inl h
      · exact Or.inr (List.mem_cons_of_mem a h)

/-- Every whitespace character in `collapseGo` output is the space 32. -/
theorem ws_collapseGo : ∀ (s : List Nat) (b : Bool) (c : Nat),
    c ∈ collapseGo b s → pyWs c = true → c = 32 := by
  intro s
  induction s with
  | nil => intro b c hc; simp [collapseGo] at hc
  | cons a as ih =>
    intro b c hc hcw
    cases b <;> cases hws : pyWs a <;> simp only [collapseGo, hws, if_true, if_false,
      Bool.false_eq_true, if_neg, List.mem_cons] at hc
    · rcases hc with rfl | hc
      · rw [hcw] at hws; exact Bool.noConfusion hws
      · exact ih false c hc hcw
    · rcases hc with rfl | hc
      · rfl
      · exact ih true c hc hcw
    · rcases hc with rfl | hc
      · rw [hcw] at hws; exact Bool.noConfusion hws
      · exact ih false c hc hcw
    · exact ih true c hc hcw

/-- After a whitespace run has been entered, the next emitted character is
not whitespace. -/
theorem head_collapseGo_true : ∀ (s : List Nat) (c : Nat),
    (collapseGo true s).head? = some c → pyWs c = false := by
  intro s
  induction s with
  | nil => intro c hc; simp [collapseGo] at hc
  | cons a as ih =>
    intro c hc
    cases hws : pyWs a <;> simp only [collapseGo, hws, if_true, if_false,
      Bool.false_eq_true, if_neg, List.head?_cons] at hc
    · rw [← Option.some_inj.mp hc]
      exact hws
    · exact ih c hc

/-- Output of `collapseGo` never has two adjacent whitespace characters. -/
theorem chain_collapseGo : ∀ (s : List Nat) (b : Bool),
    List.Chain' noWsPair (collapseGo b s) := by
  intro s
  induction s with
  | nil => intro b; simp [collapseGo]
  | cons a as ih =>
    intro b
    cases b <;> cases hws : pyWs a <;> simp only [collapseGo, hws, if_true, if_false,
      Bool.false_eq_true, if_neg]
    · exact List.chain'_cons'.mpr
        ⟨fun y _ => fun hp => by rw [hws] at hp; exact Bool.noConfusion hp.1, ih false⟩
    · exact List.chain'_cons'.mpr
        ⟨fun y hy => fun hp => by
          rw [head_collapseGo_true as y hy] at hp
          exact Bool.noConfusion hp.2, ih true⟩
    · exact List.chain'_cons'.mpr
        ⟨fun y _ => fun hp => by rw [hws] at hp; exact Bool.noConfusion hp.1, ih false⟩
    · exact ih true

/-- Function `collapseGo` is the identity on a string whose whitespace is already
collapsed (all whitespace is the space 32, no two adjacent, and — when the
flag says a run is open — the head is not whitespace). -/
theorem collapseGo_fix : ∀ (s : List Nat) (b : Bool),
    (∀ c ∈ s, pyWs c = true → c = 32) → List.Chain' noWsPair s →
    (b = true → ∀ c, s.head? = some c → pyWs c = false) → collapseGo b s = s := by
  intro s
  induction s with
  | nil => intro b _ _ _; rfl
  | cons a as ih =>
    intro b hall hchain hhead
    have htail : ∀ c ∈ as, pyWs c = true → c = 32 :=
      fun c hc => hall c (List.mem_cons_of_mem a hc)
    have hchain' := List.chain'_cons'.mp hchain
    cases hws : pyWs a with
    | true =>
      have ha32 : a = 32 := hall a (List.mem_cons_self a as) hws
      cases b with
      | true =>
        have := hhead rfl a (by simp)
        rw [hws] at this
        exact Bool.noConfusion this
      | false =>
        show (if pyWs a = true then 32 :: collapseGo true as else a :: collapseGo false as) = a :: as
        rw [if_pos hws, ha32]
        have hrec : collapseGo true as = as := by
          refine ih true htail hchain'.2 (fun _ c hc => ?_)
          have hr := hchain'.1 c hc
          cases hpc : pyWs c with
          | true => exact absurd ⟨hws, hpc⟩ hr
          | false => rfl
        rw [hrec]
    | false =>
      show (if pyWs a = true then
          (if b = true then collapseGo true as else 32 :: collapseGo true as)
        else a :: collapseGo false as) = a :: as
      rw [if_neg (by rw [hws]; exact Bool.noConfusion)]
      rw [ih false htail hchain'.2 (fun h => Bool.noConfusion h)]

/-- The head of a `dropWhile pyWs` result is not whitespace. -/
theorem head_dropWhile : ∀ (l : List Nat) (c : Nat),
    (l.dropWhile pyWs).head? = some c → pyWs c = false := by
  intro l
  induction l with
  | nil => intro c hc; simp at hc
  | cons a as ih =>
    intro c hc
    cases hws : pyWs a with
    | true =>
      rw [List.dropWhile_cons_of_pos hws] at hc
      exact ih c hc
    | false =>
      rw [List.dropWhile_cons_of_neg (by rw [hws]; exact Bool.noConfusion)] at hc
      rw [← Option.some_inj.mp hc]
      exact hws

/-- The head of a stripped string is not whitespace. -/
theorem head_pyStrip (s : List Nat) (c : Nat)
    (h : (pyStrip s).head? = some c) : pyWs c = false := by
  unfold pyStrip at h
  obtain ⟨t, ht⟩ := List.rdropWhile_prefix pyWs (s.dropWhile pyWs)
  cases hr : (s.dropWhile pyWs).rdropWhile pyWs with
  | nil => rw [hr] at h; exact absurd h (by simp)
  | cons x xs =>
    rw [hr] at h
    have hx : x = c := by simpa using h
    rw [hr] at ht
    have hhd : (s.dropWhile pyWs).head? = some c := by
      rw [← ht, List.cons_append, List.head?_cons, hx]
    exact head_dropWhile s c hhd

/-- The last character of a stripped string is not whitespace. -/
theorem last_pyStrip (s : List Nat) (c : Nat)
    (h : (pyStrip s).getLast? = some c) : pyWs c = false := by
  unfold pyStrip List.rdropWhile at h
  rw [List.getLast?_reverse] at h
  exact head_dropWhile _ c h

/-- Stripping preserves the no-adjacent-whitespace property. -/
theorem chain_pyStrip (s : List Nat) (h : List.Chain' noWsPair s) :
    List.Chain' noWsPair (pyStrip s) :=
  List.Chain'.prefix (List.Chain'.suffix h (List.dropWhile_suffix pyWs))
    (List.rdropWhile_prefix pyWs _)

/-- Function `dropWhile` is the identity when the head does not satisfy the
predicate. -/
theorem dropWhile_eq_self_of_head (l : List Nat)
    (h : ∀ c, l.head? = some c → pyWs c = false) : l.dropWhile pyWs = l := by
  cases l with
  | nil => rfl
  | cons a as =>
    exact List.dropWhile_cons_of_neg (by rw [h a (by simp)]; exact Bool.noConfusion)

/-- Stripping is the identity on a string with non-whitespace ends. -/
theorem strip_fix (s : List Nat)
    (hhead : ∀ c, s.head? = some c → pyWs c = false)
    (hlast : ∀ c, s.getLast? = some c → pyWs c = false) : pyStrip s = s := by
  unfold pyStrip
  rw [dropWhile_eq_self_of_head s hhead]
  rw [List.rdropWhile_eq_self_iff]
  intro hl hp
  have := hlast (s.getLast hl) (List.getLast?_eq_getLast s hl)
  rw [hp] at this
  exact Bool.noConfusion this

/-- Lowercasing is the identity on an all-lowercase string. -/
theorem lower_fix (s : List Nat) (h : ∀ c ∈ s, lowerChar c = c) : pyLower s = s :=
  (List.map_congr_left h).trans (List.map_id s)

/-- The invariants holding of every normalized heading: whitespace is the
single space 32 and never adjacent or at either end, no backticks, all
lowercase. -/
def NormalStr (s : List Nat) : Prop :=
  (∀ c ∈ s, pyWs c = true → c = 32) ∧ (∀ c ∈ s, c ≠ 96) ∧ (∀ c ∈ s, lowerChar c = c)
  ∧ List.Chain' noWsPair s
  ∧ (∀ c, s.head? = some c → pyWs c = false) ∧ (∀ c, s.getLast? = some c → pyWs c = false)

/-- Normalization is the identity on a string satisfying the invariants. -/
theorem normalize_fix (s : List Nat) (h : NormalStr s) : normalizeHeading s = s := by
  obtain ⟨hws, hbt, hlc, hch, hhd, hlt⟩ := h
  unfold normalizeHeading
  rw [List.filter_eq_self.mpr (fun c hc => by simpa using hbt c hc)]
  rw [show collapseWs s = s from
    collapseGo_fix s false hws hch (fun hb => Bool.noConfusion hb)]
  rw [strip_fix s hhd hlt]
  exact lower_fix s hlc

/-- Every normalization output satisfies the invariants. -/
theorem normalize_normal (g : List Nat) : NormalStr (normalizeHeading g) := by
  have hmemt : ∀ d ∈ pyStrip (collapseWs (g.filter (fun c => c != 96))),
      d ∈ collapseWs (g.filter (fun c => c != 96)) :=
    fun d hd => mem_pyStrip _ d hd
  refine ⟨?_, ?_, ?_, ?_, ?_, ?_⟩
  · intro c hc hcw
    obtain ⟨d, hd, rfl⟩ := List.mem_map.mp hc
    rw [pyWs_lowerChar] at hcw
    have h32 : d = 32 := ws_collapseGo _ false d (hmemt d hd) hcw
    rw [h32]
    rfl
  · intro c hc hc96
    obtain ⟨d, hd, rfl⟩ := List.mem_map.mp hc
    have hd96 : d = 96 := lowerChar_eq_96 d hc96
    rcases mem_collapseGo _ false d (hmemt d hd) with h | h
    · rw [hd96] at h; exact absurd h (by omega)
    · rw [List.mem_filter] at h
      rw [hd96] at h
      simpa using h.2
  · intro c hc
    obtain ⟨d, _, rfl⟩ := List.mem_map.mp hc
    exact lowerChar_lowerChar d
  · refine (List.chain'_map lowerChar).mpr ?_
    refine List.Chain'.imp ?_ (chain_pyStrip _ (chain_collapseGo _ false))
    intro a b hab hp
    rw [pyWs_lowerChar, pyWs_lowerChar] at hp
    exact hab hp
  · intro c hc
    rw [show normalizeHeading g =
      (pyStrip (collapseWs (List.filter (fun c => c != 96) g))).map lowerChar from rfl] at hc
    rw [List.head?_map] at hc
    obtain ⟨d, hd, rfl⟩ := Option.map_eq_some'.mp hc
    rw [pyWs_lowerChar]
    exact head_pyStrip _ d hd
  · intro c hc
    rw [show normalizeHeading g =
      (pyStrip (collapseWs (List.filter (fun c => c != 96) g))).map lowerChar from rfl] at hc
    rw [List.getLast?_map] at hc
    obtain ⟨d, hd, rfl⟩ := Option.map_eq_some'.mp hc
    rw [pyWs_lowerChar]
    exact last_pyStrip _ d hd

/-- Normalization is idempotent. -/
theorem normalizeHeading_idem (g : List Nat) :
    normalizeHeading (normalizeHeading g) = normalizeHeading g :=
  normalize_fix _ (normalize_normal g)

/-- C4: every heading string produced by `extract_headings` is already
normalized — normalizing it again (backtick removal, whitespace collapsing,
stripping, lowercasing) returns it unchanged — and the normalization is
idempotent on every string. -/
theorem extracted_headings_are_normalized :
    (∀ (lines : List (List Nat)) (h : List Nat),
      h ∈ extract_headings lines → normalizeHeading h = h)
    ∧ ∀ s : List Nat, normalizeHeading (normalizeHeading s) = normalizeHeading s := by
  refine ⟨?_, normalizeHeading_idem⟩
  intro lines h hmem
  obtain ⟨line, _, hmap⟩ := List.mem_filterMap.mp hmem
  obtain ⟨g, _, rfl⟩ := Option.map_eq_some'.mp hmap
  exact normalizeHeading_idem g

/-- Witness for C4 on a concrete extracted heading. -/
theorem extracted_headings_are_normalized_witness :
    normalizeHeading (pstr "hello world") = pstr "hello world" :=
  extracted_headings_are_normalized.1 [pstr "# Hello  `World`"] (pstr "hello world")
    (by decide)

/-! ## C7 -/

/-- A freshly built row matches its own key. -/
theorem rowKey_self (owner repo branch sha : List Nat) (t : Nat) (j : J) :
    rowKey owner repo sha ⟨owner, repo, branch, sha, t, j⟩ = true := by
  simp [rowKey]

/-- A search over rows from which every key match was filtered out fails. -/
theorem find?_filter_not (db : List Row) (p : Row → Bool) :
    (db.filter (fun r => !p r)).find? p = none := by
  rw [List.find?_eq_none]
  intro x hx
  rw [List.mem_filter] at hx
  simpa using hx.2

/-- Mapping `mapMO` of a pointwise-successful decoder over an encoded list succeeds
with the pointwise results. -/
theorem mapMO_map_some {α β γ : Type} (l : List α) (g : α → γ) (f : γ → Option β)
    (k : α → β) (hcomp : ∀ a, f (g a) = some (k a)) :
    mapMO f (l.map g) = some (l.map k) := by
  induction l with
  | nil => rfl
  | cons a as ih =>
    rw [List.map_cons]
    show (f (g a)).bind _ = _
    rw [hcomp a, ih]
    rfl

/-- Decoder `decOptStr` inverts `optJ`. -/
theorem decOptStr_optJ (o : Option (List Nat)) : decOptStr (optJ o) = some o := by
  cases o <;> rfl

/-- Decoding inverts encoding: the scan result round-trips losslessly
through its serialized JSON form. -/
theorem decodeScan_encodeScan (r : ScanResult) : decodeScan (encodeScan r) = some r := by
  have hfile : ∀ kv : List Nat × Option (List Nat),
      decFileEntry ((fun kv => (kv.1, optJ kv.2)) kv) = some ((fun kv => kv) kv) := by
    intro kv
    obtain ⟨x, y⟩ := kv
    cases y <;> rfl
  have hsec : ∀ kv : List Nat × Bool,
      decSecEntry ((fun kv => (kv.1, J.jb kv.2)) kv) = some ((fun kv => kv) kv) := by
    intro kv
    obtain ⟨x, y⟩ := kv
    rfl
  have h1 := mapMO_map_some r.files (fun kv => (kv.1, optJ kv.2)) decFileEntry
    (fun kv => kv) hfile
  have h2 := mapMO_map_some r.readme.headings J.js decStr (fun s => s) (fun _ => rfl)
  have h3 := mapMO_map_some r.readme.sections (fun kv => (kv.1, J.jb kv.2)) decSecEntry
    (fun kv => kv) hsec
  have h4 := mapMO_map_some r.suggestions J.js decStr (fun s => s) (fun _ => rfl)
  simp [encodeScan, decodeScan, h1, h2, h3, h4, decOptStr_optJ, List.map_id']

/-- C7: a `get_cached` performed after a `save_scan` with the same
(owner, repo, sha) key returns exactly the saved result: the stored value
is the serialized form of `R`, and decoding it recovers `R` losslessly. -/
theorem cache_save_get_roundtrip (db : List Row) (owner repo branch sha : List Nat)
    (t : Nat) (R : ScanResult) :
    get_cached (save_scan db owner repo branch sha t R) owner repo sha
      = some (encodeScan R)
    ∧ decodeScan (encodeScan R) = some R := by
  refine ⟨?_, decodeScan_encodeScan R⟩
  unfold get_cached save_scan
  rw [List.find?_append, find?_filter_not db (rowKey owner repo sha)]
  simp [rowKey_self]

/-! ## C8 -/

/-- C8: saving twice under the same (owner, repo, sha) key replaces the
prior row wholesale — the cache ends up holding the original non-matching
rows plus exactly one row for the key, carrying the second call's branch,
scanned_at and result — and a subsequent `get_cached` returns the second
result. -/
theorem cache_overwrite_not_merge (db : List Row) (o r b1 b2 sha : List Nat)
    (t1 t2 : Nat) (R1 R2 : ScanResult) :
    get_cached (save_scan (save_scan db o r b1 sha t1 R1) o r b2 sha t2 R2) o r sha
      = some (encodeScan R2)
    ∧ save_scan (save_scan db o r b1 sha t1 R1) o r b2 sha t2 R2
      = db.filter (fun row => !rowKey o r sha row)
        ++ [⟨o, r, b2, sha, t2, encodeScan R2⟩] := by
  have e1 : (db.filter (fun row => !rowKey o r sha row)).filter
        (fun row => !rowKey o r sha row)
      = db.filter (fun row => !rowKey o r sha row) :=
    List.filter_eq_self.mpr (fun a ha => (List.mem_filter.mp ha).2)
  have e2 : [(⟨o, r, b1, sha, t1, encodeScan R1⟩ : Row)].filter
      (fun row => !rowKey o r sha row) = [] := by
    simp [rowKey_self]
  have hdb : save_scan (save_scan db o r b1 sha t1 R1) o r b2 sha t2 R2
      = db.filter (fun row => !rowKey o r sha row)
        ++ [⟨o, r, b2, sha, t2, encodeScan R2⟩] := by
    unfold save_scan
    rw [List.filter_append, e1, e2, List.append_nil]
  refine ⟨?_, hdb⟩
  unfold get_cached
  rw [hdb]
  rw [List.find?_append, find?_filter_not db (rowKey o r sha)]
  simp [rowKey_self]

/-! ## C9 -/

/-- C9: `list_recent` returns the stored rows ordered newest `scanned_at`
first, truncated to at most `limit` entries (its length is
`min limit (number of rows)`, it is sorted by descending `scanned_at`, and
each returned summary comes from a stored row); and on a cache of 5 rows
inserted with strictly increasing `scanned_at`, `list_recent 3` returns
exactly the summaries of the 3 most recently inserted rows, newest
first. -/
theorem list_recent_ordered_truncated :
    (∀ (db : List Row) (limit : Nat), (list_recent db limit).length = min limit db.length)
    ∧ (∀ (db : List Row) (limit : Nat),
        List.Sorted (fun a b : RecentRow => b.scanned_at ≤ a.scanned_at)
          (list_recent db limit))
    ∧ (∀ (db : List Row) (limit : Nat), ∀ s ∈ list_recent db limit,
        ∃ row ∈ db, s = ⟨row.owner, row.repo, row.branch, row.sha, row.scanned_at⟩)
    ∧ (∀ r1 r2 r3 r4 r5 : Row,
        r1.scanned_at < r2.scanned_at → r2.scanned_at < r3.scanned_at →
        r3.scanned_at < r4.scanned_at → r4.scanned_at < r5.scanned_at →
        list_recent [r1, r2, r3, r4, r5] 3 =
          [⟨r5.owner, r5.repo, r5.branch, r5.sha, r5.scanned_at⟩,
           ⟨r4.owner, r4.repo, r4.branch, r4.sha, r4.scanned_at⟩,
           ⟨r3.owner, r3.repo, r3.branch, r3.sha, r3.scanned_at⟩]) := by
  refine ⟨?_, ?_, ?_, ?_⟩
  · intro db limit
    unfold list_recent
    rw [List.length_map, List.length_take, (List.perm_insertionSort recAfter db).length_eq]
  · intro db limit
    unfold list_recent
    exact List.Pairwise.map _ (fun a b hab => hab)
      (((List.sorted_insertionSort recAfter db).sublist
        (List.take_sublist limit _)))
  · intro db limit s hs
    unfold list_recent at hs
    obtain ⟨row, hrow, rfl⟩ := List.mem_map.mp hs
    have hmem : row ∈ db := by
      have h' := List.mem_of_mem_take hrow
      simpa using h'
    exact ⟨row, hmem, rfl⟩
  · intro r1 r2 r3 r4 r5 h12 h23 h34 h45
    have n12 : ¬recAfter r1 r2 := by simp only [recAfter]; omega
    have n13 : ¬recAfter r1 r3 := by simp only [recAfter]; omega
    have n14 : ¬recAfter r1 r4 := by simp only [recAfter]; omega
    have n15 : ¬recAfter r1 r5 := by simp only [recAfter]; omega
    have n23 : ¬recAfter r2 r3 := by simp only [recAfter]; omega
    have n24 : ¬recAfter r2 r4 := by simp only [recAfter]; omega
    have n25 : ¬recAfter r2 r5 := by simp only [recAfter]; omega
    have n34 : ¬recAfter r3 r4 := by simp only [recAfter]; omega
    have n35 : ¬recAfter r3 r5 := by simp only [recAfter]; omega
    have n45 : ¬recAfter r4 r5 := by simp only [recAfter]; omega
    unfold list_recent
    simp [List.insertionSort, List.orderedInsert,
      n12, n13, n14, n15, n23, n24, n25, n34, n35, n45]

/-- Witness for C9 on a concrete cache of 5 rows. -/
theorem list_recent_ordered_truncated_witness :
    list_recent
      [⟨pstr "o", pstr "r", pstr "b", pstr "s1", 1, J.null⟩,
       ⟨pstr "o", pstr "r", pstr "b", pstr "s2", 2, J.null⟩,
       ⟨pstr "o", pstr "r", pstr "b", pstr "s3", 3, J.null⟩,
       ⟨pstr "o", pstr "r", pstr "b", pstr "s4", 4, J.null⟩,
       ⟨pstr "o", pstr "r", pstr "b", pstr "s5", 5, J.null⟩] 3 =
      [⟨pstr "o", pstr "r", pstr "b", pstr "s5", 5⟩,
       ⟨pstr "o", pstr "r", pstr "b", pstr "s4", 4⟩,
       ⟨pstr "o", pstr "r", pstr "b", pstr "s3", 3⟩] :=
  list_recent_ordered_truncated.2.2.2 _ _ _ _ _
    (by decide) (by decide) (by decide) (by decide)

end ReadmeLens

namespace ReadmeLens

example : pstr "ab" = [97, 98] := by decide

example : extract_headings [pstr "# Hello  `World`", pstr "text", pstr "####### no"] =
    [pstr "hello world"] := by decide

example : matchHeading (pstr " #\tfoo bar ") = some (pstr "foo bar") := by decide

example : heading_present [pstr "usage examples"] [pstr "usage"] = true := by decide

example :
    scan_repo ⟨[pstr "README.md"], fun _ => [pstr "## Installation", pstr "## Usage"]⟩ =
      { files := [(pstr "LICENSE", none), (pstr "CONTRIBUTING", none),
          (pstr "CODE_OF_CONDUCT", none), (pstr "SECURITY", none), (pstr "CHANGELOG", none),
          (pstr "ENV_EXAMPLE", none)]
      , readme :=
        { path := some (pstr "README.md")
        , headings := [pstr "installation", pstr "usage"]
        , sections := [(pstr "installation", true), (pstr "usage", true),
            (pstr "development", false), (pstr "configuration", false),
            (pstr "tests", false), (pstr "license", false)] }
      , score := 37
      , suggestions := [pstr "Add a README section: Configuration.",
          pstr "Add a README section: Tests.",
          pstr "Add a LICENSE file (MIT/Apache-2.0/etc).",
          pstr "Add CONTRIBUTING.md with local dev + PR guidelines.",
          pstr "Add .env.example (or document required environment variables)."] } := by
  decide

end ReadmeLens
